import Mathlib

/-!
# Verification of the Bloom filter described in the repository's documentation

The repository is a statically exported documentation site; its one
algorithmic artifact is a `BloomFilter` TypeScript class given as an
illustrative snippet inside a markdown article.  This file embeds that
class shallowly in Lean 4 and settles the specification's claims about it.

Modelling conventions:
* JavaScript strings are modelled as `List Nat` of their UTF-16 code units
  (the code only ever uses `charCodeAt(i) & 0xff` and `key.length`, so the
  embedding applies `% 256` exactly where the source applies `& 0xff`).
* JavaScript 32-bit bitwise arithmetic is modelled on `Nat` with explicit
  `% 4294967296`; signed vs. unsigned interpretation never matters because
  every operand of `&`, `|`, `^`, `<<`, `>>>` is used only through its
  32-bit two's-complement bit pattern, which the unsigned representative
  reproduces.
* `getSize` / `getHashCount` are IEEE-754 double computations using
  `Math.log`; their numeric results are not modelled.  The constructed
  `size` and `hashCount` are therefore parameters of the embedding, and
  theorems quantify over them (constrained by the invariants `m ≥ 1`,
  `k ≥ 1` that the specification states for valid construction arguments).
-/

namespace FeStandard

/-- The 16-bit split multiply-mod-2^32 idiom used throughout
`murmurhash3_32_gc`: the source line
`(((x & 0xffff) * c) + ((((x >>> 16) * c) & 0xffff) << 16)) & 0xffffffff`
for an unsigned 32-bit pattern `x` and constant `c`. -/
def mmul (x c : Nat) : Nat :=
  ((x % 65536) * c + ((x / 65536 * c) % 65536) * 65536) % 4294967296

/-- The main 4-byte-block loop of `murmurhash3_32_gc`
(`while (i < bytes) { ... }`): consumes the key four code units at a time,
returning the running hash together with the unconsumed remainder
(0 to 3 code units), which the source handles in the trailing `switch`. -/
def murmurBody : List Nat → Nat → Nat × List Nat
  | b0 :: b1 :: b2 :: b3 :: rest, h1 =>
      -- k1 = (c&0xff) | ((c&0xff)<<8) | ((c&0xff)<<16) | ((c&0xff)<<24)
      let k1 := (b0 % 256) ||| ((b1 % 256) * 256) ||| ((b2 % 256) * 65536) |||
                ((b3 % 256) * 16777216)
      let k1 := mmul k1 0xcc9e2d51
      -- k1 = (k1 << 15) | (k1 >>> 17)
      let k1 := ((k1 * 32768) % 4294967296) ||| (k1 / 131072)
      let k1 := mmul k1 0x1b873593
      let h1 := h1 ^^^ k1
      -- h1 = (h1 << 13) | (h1 >>> 19)
      let h1 := ((h1 * 8192) % 4294967296) ||| (h1 / 524288)
      let h1b := mmul h1 5
      -- h1 = ((h1b & 0xffff) + 0x6b64) + ((((h1b >>> 16) + 0xe654) & 0xffff) << 16)
      -- (the source defers its mod-2^32 reduction to the next bitwise use;
      --  the embedding performs it here, which is value-equal downstream)
      let h1 := ((h1b % 65536) + 0x6b64 + ((h1b / 65536 + 0xe654) % 65536) * 65536) %
                4294967296
      murmurBody rest h1
  | rest, h1 => (h1, rest)

/-- The trailing `switch (remainder)` of `murmurhash3_32_gc` with its
fall-through cases 3 → 2 → 1; an empty remainder (`case 0`) leaves the
hash untouched. -/
def murmurTail : List Nat → Nat → Nat
  | [], h1 => h1
  | bs, h1 =>
      let k1 :=
        match bs with
        | [x0] => x0 % 256
        | [x0, x1] => ((x1 % 256) * 256) ^^^ (x0 % 256)
        | [x0, x1, x2] => ((x2 % 256) * 65536) ^^^ ((x1 % 256) * 256) ^^^ (x0 % 256)
        | _ => 0
      let k1 := mmul k1 0xcc9e2d51
      let k1 := ((k1 * 32768) % 4294967296) ||| (k1 / 131072)
      let k1 := mmul k1 0x1b873593
      h1 ^^^ k1

/-- The hash `BloomFilter.murmurhash3_32_gc(key, seed)`: block loop, tail switch,
then the finalizer `h1 ^= len; h1 ^= h1>>>16; h1 *= 0x85ebca6b;
h1 ^= h1>>>13; h1 *= 0xc2b2ae35; h1 ^= h1>>>16; return h1 >>> 0`. -/
def murmurhash3_32_gc (key : List Nat) (seed : Nat) : Nat :=
  let p := murmurBody key (seed % 4294967296)
  let h1 := murmurTail p.2 p.1
  let h1 := h1 ^^^ (key.length % 4294967296)
  let h1 := h1 ^^^ (h1 / 65536)
  let h1 := mmul h1 0x85ebca6b
  let h1 := h1 ^^^ (h1 / 8192)
  let h1 := mmul h1 0xc2b2ae35
  let h1 := h1 ^^^ (h1 / 65536)
  h1 % 4294967296

/-- State of a `BloomFilter` instance: the five private fields of the
TypeScript class.  `expectedItems` and `falsePositiveRate` are stored at
construction and never read afterwards (they feed only the unmodelled
floating-point sizing computations), so their numeric types here are
exact stand-ins for the JavaScript `number` arguments. -/
structure BloomFilter where
  expectedItems : Int
  falsePositiveRate : ℚ
  size : Nat
  hashCount : Nat
  bitArray : List Nat
  deriving Repr, DecidableEq

namespace BloomFilter

/-- The filter state produced by the constructor body: the two arguments
stored, `size` and `hashCount` standing for the results of the
floating-point `getSize` / `getHashCount` calls, and
`bitArray = new Array(size).fill(0)`. -/
def freshFilter (expectedItems : Int) (falsePositiveRate : ℚ)
    (size hashCount : Nat) : BloomFilter :=
  { expectedItems, falsePositiveRate, size, hashCount
    bitArray := List.replicate size 0 }

/-- The constructor `new BloomFilter(expectedItems, falsePositiveRate)`
restricted to the path where the bit-array allocation succeeds.  The
body performs no argument validation (no `InvalidArgument` exists
anywhere in the code), so when `size` is a valid array length — the case
for all valid arguments — it just assigns the five fields.
`size`/`hashCount` stand for the floating-point `getSize`/`getHashCount`
results (see the module docstring).  The one failure the constructor can
exhibit, the `RangeError` thrown by `new Array(this.size)` when the
float-derived size is negative, non-finite, or `≥ 2^32` (reachable only
with invalid arguments), is modelled by `constructAlloc` below, of which
this definition is the `Except.ok` restriction. -/
def construct (expectedItems : Int) (falsePositiveRate : ℚ)
    (size hashCount : Nat) : Except String BloomFilter :=
  Except.ok (freshFilter expectedItems falsePositiveRate size hashCount)

/-- Full model of the constructor including the `new Array(this.size)`
allocation.  `sizeResult` is the value of the floating-point computation
`Math.ceil(-(n * Math.log(p)) / Math.log(2) ** 2)` as seen by
`new Array`: `some z` for a finite integer result, `none` for NaN or
±Infinity (reachable e.g. for `falsePositiveRate ≤ 0`).  JavaScript's
`new Array(x)` throws `RangeError` unless `x` is an integer with
`0 ≤ x < 2^32`; nothing else in the constructor body can throw, and no
argument validation of any kind is performed. -/
def constructAlloc (expectedItems : Int) (falsePositiveRate : ℚ)
    (sizeResult : Option Int) (hashCount : Nat) : Except String BloomFilter :=
  match sizeResult with
  | some z =>
      if 0 ≤ z ∧ z < 4294967296 then
        Except.ok (freshFilter expectedItems falsePositiveRate z.toNat hashCount)
      else Except.error "RangeError: invalid array length"
  | none => Except.error "RangeError: invalid array length"

/-- Body of the `for` loop of `add`, iterating over the list of seed
values `i`: each step sets `bitArray[murmurhash3_32_gc(item, i) % size]`
to `1`. -/
def addGo (item : List Nat) : BloomFilter → List Nat → BloomFilter
  | bf, [] => bf
  | bf, i :: rest =>
      addGo item
        { bf with bitArray := bf.bitArray.set (murmurhash3_32_gc item i % bf.size) 1 }
        rest

/-- Method `BloomFilter.add(item)`: runs the loop for `i = 0 .. hashCount - 1`. -/
def add (bf : BloomFilter) (item : List Nat) : BloomFilter :=
  addGo item bf (List.range bf.hashCount)

/-- Body of the `for` loop of `check`, threading the (never-modified)
filter state to make the method's frame explicit: returns `false` as soon
as a probed bit is `0`, and `true` if the loop completes.  Reading
`bitArray[hash]` out of range yields `undefined` in JavaScript, which is
`!== 0`; hence the default `1` in `getD` (irrelevant whenever
`size = bitArray.length > 0`, which makes every probe in range). -/
def checkGo (item : List Nat) : BloomFilter → List Nat → BloomFilter × Bool
  | bf, [] => (bf, true)
  | bf, i :: rest =>
      if bf.bitArray.getD (murmurhash3_32_gc item i % bf.size) 1 = 0 then (bf, false)
      else checkGo item bf rest

/-- Method `BloomFilter.check(item)`, together with the (unchanged) receiver
state. -/
def checkS (bf : BloomFilter) (item : List Nat) : BloomFilter × Bool :=
  checkGo item bf (List.range bf.hashCount)

/-- The boolean result of `BloomFilter.check(item)`. -/
def check (bf : BloomFilter) (item : List Nat) : Bool :=
  (bf.checkS item).2

/-- A sequence of `add` calls, in order. -/
def addAll (bf : BloomFilter) (items : List (List Nat)) : BloomFilter :=
  items.foldl add bf

/-- Whether the bit probed by `check` for seed `i` is nonzero. -/
def bitOK (bf : BloomFilter) (item : List Nat) (i : Nat) : Bool :=
  decide (bf.bitArray.getD (murmurhash3_32_gc item i % bf.size) 1 ≠ 0)

/-- Setting the listed positions of a bit array to `1`, in order (the
accumulated effect of the `add` loop on `bitArray`). -/
def setBits (arr : List Nat) (ps : List Nat) : List Nat :=
  ps.foldl (fun a p => a.set p 1) arr

/-- The positions probed by `add`/`check` for `item` on a filter of the
given size and hash count. -/
def probes (size hashCount : Nat) (item : List Nat) : List Nat :=
  (List.range hashCount).map fun i => murmurhash3_32_gc item i % size

theorem setBits_length (ps : List Nat) (arr : List Nat) :
    (setBits arr ps).length = arr.length := by
  induction ps generalizing arr with
  | nil => rfl
  | cons p ps ih =>
      show (setBits (arr.set p 1) ps).length = arr.length
      rw [ih, List.length_set]

theorem setBits_getElem? (ps : List Nat) (arr : List Nat) (j : Nat) :
    (setBits arr ps)[j]? = if j < arr.length ∧ j ∈ ps then some 1 else arr[j]? := by
  induction ps generalizing arr with
  | nil => simp [setBits]
  | cons p ps ih =>
      show (setBits (arr.set p 1) ps)[j]? = _
      rw [ih, List.length_set]
      by_cases hj : j < arr.length
      · by_cases hmem : j ∈ ps
        · simp [hj, hmem]
        · by_cases hp : p = j
          · subst hp
            simp [hj, hmem, List.getElem?_set_self hj]
          · have hp' : ¬j = p := fun hjp => hp hjp.symm
            simp [hj, hmem, hp', List.getElem?_set_ne hp]
      · have hnone : arr[j]? = none := List.getElem?_eq_none (Nat.le_of_not_lt hj)
        have hnone' : (arr.set p 1)[j]? = none :=
          List.getElem?_eq_none (by rw [List.length_set]; exact Nat.le_of_not_lt hj)
        simp [hj, hnone, hnone']

theorem setBits_idem (ps : List Nat) (arr : List Nat) :
    setBits (setBits arr ps) ps = setBits arr ps := by
  apply List.ext_getElem?
  intro j
  rw [setBits_getElem?, setBits_getElem?, setBits_length]
  by_cases h : j < arr.length ∧ j ∈ ps
  · simp [h]
  · simp [h]

theorem addGo_eq (item : List Nat) (L : List Nat) (bf : BloomFilter) :
    addGo item bf L =
      { bf with bitArray := setBits bf.bitArray (L.map fun i => murmurhash3_32_gc item i % bf.size) } := by
  induction L generalizing bf with
  | nil => rfl
  | cons i rest ih =>
      show addGo item { bf with bitArray := _ } rest = _
      rw [ih]
      rfl

theorem add_eq (bf : BloomFilter) (item : List Nat) :
    add bf item =
      { bf with bitArray := setBits bf.bitArray (probes bf.size bf.hashCount item) } := by
  rw [add, addGo_eq]
  rfl

theorem add_expectedItems (bf : BloomFilter) (item : List Nat) :
    (bf.add item).expectedItems = bf.expectedItems := by rw [add_eq]

theorem add_falsePositiveRate (bf : BloomFilter) (item : List Nat) :
    (bf.add item).falsePositiveRate = bf.falsePositiveRate := by rw [add_eq]

theorem add_size (bf : BloomFilter) (item : List Nat) :
    (bf.add item).size = bf.size := by rw [add_eq]

theorem add_hashCount (bf : BloomFilter) (item : List Nat) :
    (bf.add item).hashCount = bf.hashCount := by rw [add_eq]

theorem add_length (bf : BloomFilter) (item : List Nat) :
    (bf.add item).bitArray.length = bf.bitArray.length := by
  rw [add_eq]
  exact setBits_length _ _

theorem add_getElem? (bf : BloomFilter) (item : List Nat) (j : Nat) :
    (bf.add item).bitArray[j]? =
      if j < bf.bitArray.length ∧ j ∈ probes bf.size bf.hashCount item then some 1
      else bf.bitArray[j]? := by
  rw [add_eq]
  exact setBits_getElem? _ _ _

theorem checkGo_fst (item : List Nat) (L : List Nat) (bf : BloomFilter) :
    (checkGo item bf L).1 = bf := by
  induction L with
  | nil => rfl
  | cons i rest ih =>
      show (if _ then (bf, false) else checkGo item bf rest).1 = bf
      split
      · rfl
      · exact ih

theorem checkGo_snd (item : List Nat) (L : List Nat) (bf : BloomFilter) :
    (checkGo item bf L).2 = L.all (bitOK bf item) := by
  induction L with
  | nil => rfl
  | cons i rest ih =>
      show (if _ = 0 then (bf, false) else checkGo item bf rest).2 = _
      by_cases h : bf.bitArray.getD (murmurhash3_32_gc item i % bf.size) 1 = 0
      · have hb : bitOK bf item i = false := decide_eq_false (not_not_intro h)
        rw [if_pos h, List.all_cons, hb, Bool.false_and]
      · have hb : bitOK bf item i = true := decide_eq_true h
        rw [if_neg h, ih, List.all_cons, hb, Bool.true_and]

theorem check_eq_all (bf : BloomFilter) (item : List Nat) :
    bf.check item = (List.range bf.hashCount).all (bitOK bf item) := by
  rw [check, checkS, checkGo_snd]

theorem getD_zero_eq_one {l : List Nat} {p : Nat} (h : l.getD p 0 = 1) :
    l[p]? = some 1 := by
  rw [List.getD_eq_getElem?_getD] at h
  cases hv : l[p]? with
  | none => rw [hv] at h; exact absurd h (by decide)
  | some v => rw [hv] at h; simp only [Option.getD_some] at h; rw [h]

theorem add_getElem?_one (bf : BloomFilter) (x : List Nat) (j : Nat)
    (h : bf.bitArray[j]? = some 1) : (bf.add x).bitArray[j]? = some 1 := by
  rw [add_getElem?]
  split
  · rfl
  · exact h

theorem add_getD0_mono (bf : BloomFilter) (x : List Nat) (p : Nat)
    (h : bf.bitArray.getD p 0 = 1) : (bf.add x).bitArray.getD p 0 = 1 := by
  rw [List.getD_eq_getElem?_getD, add_getElem?_one bf x p (getD_zero_eq_one h)]
  rfl

theorem add_bitOK_mono (bf : BloomFilter) (x item : List Nat) (i : Nat)
    (h : bitOK bf item i = true) : bitOK (bf.add x) item i = true := by
  apply decide_eq_true
  have h' := of_decide_eq_true h
  rw [add_size, List.getD_eq_getElem?_getD, add_getElem?]
  rw [List.getD_eq_getElem?_getD] at h'
  split
  · exact (by decide : (some 1).getD 1 ≠ 0)
  · exact h'

theorem add_check_mono (bf : BloomFilter) (x q : List Nat)
    (h : bf.check q = true) : (bf.add x).check q = true := by
  rw [check_eq_all, add_hashCount, List.all_eq_true]
  rw [check_eq_all, List.all_eq_true] at h
  intro i hi
  exact add_bitOK_mono bf x q i (h i hi)

theorem addAll_getD0_mono (items : List (List Nat)) (bf : BloomFilter) (p : Nat)
    (h : bf.bitArray.getD p 0 = 1) : (bf.addAll items).bitArray.getD p 0 = 1 := by
  induction items generalizing bf with
  | nil => exact h
  | cons x items ih => exact ih (bf.add x) (add_getD0_mono bf x p h)

theorem addAll_check_mono (items : List (List Nat)) (bf : BloomFilter) (q : List Nat)
    (h : bf.check q = true) : (bf.addAll items).check q = true := by
  induction items generalizing bf with
  | nil => exact h
  | cons x items ih => exact ih (bf.add x) (add_check_mono bf x q h)

theorem construct_eq_alloc (n : Int) (p : ℚ) (m k : Nat)
    (h : (m : Int) < 4294967296) :
    constructAlloc n p (some (m : Int)) k = construct n p m k := by
  show (if 0 ≤ (m : Int) ∧ (m : Int) < 4294967296 then
      Except.ok (freshFilter n p (m : Int).toNat k)
    else Except.error "RangeError: invalid array length") = _
  rw [if_pos ⟨Int.ofNat_nonneg m, h⟩, Int.toNat_natCast]
  rfl

/-- Claim C1: for every filter whose state satisfies the constructor-established
invariants (`size ≥ 1`, `bitArray.length = size`) and every string `x`,
calling `check(x)` immediately after `add(x)` returns `true` — the filter
never produces a false negative. -/
theorem claim1_no_false_negatives (bf : BloomFilter) (x : List Nat)
    (hsize : 1 ≤ bf.size) (hlen : bf.bitArray.length = bf.size) :
    (bf.add x).check x = true := by
  rw [check_eq_all, List.all_eq_true]
  intro i hi
  rw [List.mem_range, add_hashCount] at hi
  apply decide_eq_true
  rw [add_size, List.getD_eq_getElem?_getD, add_getElem?]
  have hp : murmurhash3_32_gc x i % bf.size < bf.bitArray.length := by
    rw [hlen]
    exact Nat.mod_lt _ hsize
  have hmem : murmurhash3_32_gc x i % bf.size ∈ probes bf.size bf.hashCount x :=
    List.mem_map.mpr ⟨i, List.mem_range.mpr hi, rfl⟩
  rw [if_pos ⟨hp, hmem⟩]
  decide

/-- Witness for C1 at a concrete filter (`size = 3`, `hashCount = 2`) and
the item `"a"` (code 97). -/
theorem claim1_witness :
    1 ≤ (3 : Nat) ∧ ([0, 0, 0] : List Nat).length = 3 ∧
      ((⟨1000, 1/100, 3, 2, [0, 0, 0]⟩ : BloomFilter).add [97]).check [97] = true :=
  ⟨by decide, by decide,
    claim1_no_false_negatives ⟨1000, 1/100, 3, 2, [0, 0, 0]⟩ [97] (by decide) (by decide)⟩

/-- Claim C3: over any sequence of `add` calls, the set of 1-bits only
grows (bits never transition 1 → 0), and consequently `check` results can
flip false → true but never true → false. -/
theorem claim3_monotonicity (bf : BloomFilter) (items : List (List Nat)) :
    (∀ p, bf.bitArray.getD p 0 = 1 → (bf.addAll items).bitArray.getD p 0 = 1) ∧
    ∀ x, bf.check x = true → (bf.addAll items).check x = true :=
  ⟨fun p h => addAll_getD0_mono items bf p h,
   fun x h => addAll_check_mono items bf x h⟩

/-- Witness for C3 at a concrete filter with a 1-bit at index 0 and a
`check`-true item, after adding `"b"` (code 98). -/
theorem claim3_witness :
    ((⟨1, 1/2, 2, 1, [1, 1]⟩ : BloomFilter).addAll [[98]]).bitArray.getD 0 0 = 1 ∧
      ((⟨1, 1/2, 2, 1, [1, 1]⟩ : BloomFilter).addAll [[98]]).check [97] = true :=
  ⟨(claim3_monotonicity ⟨1, 1/2, 2, 1, [1, 1]⟩ [[98]]).1 0 (by decide),
   (claim3_monotonicity ⟨1, 1/2, 2, 1, [1, 1]⟩ [[98]]).2 [97] (by decide)⟩

/-- Claim C4: `add` is idempotent — adding the same item twice in
succession yields exactly the same filter state as adding it once. -/
theorem claim4_add_idempotent (bf : BloomFilter) (x : List Nat) :
    (bf.add x).add x = bf.add x := by
  rw [add_eq bf x, add_eq]
  simp only [setBits_idem]

/-- Claim C5: a freshly constructed filter (valid parameters, hence
`size ≥ 1` and `hashCount ≥ 1`, per the specification's sizing
invariants) answers `false` to `check` on every item. -/
theorem claim5_empty_filter (n : Int) (p : ℚ) (m k : Nat) (x : List Nat)
    (hm : 1 ≤ m) (hk : 1 ≤ k) (bf : BloomFilter)
    (hbf : construct n p m k = Except.ok bf) : bf.check x = false := by
  rw [construct] at hbf
  have e : bf = freshFilter n p m k := (Except.ok.inj hbf).symm
  subst e
  have h0 : bitOK (freshFilter n p m k) x 0 = false := by
    apply decide_eq_false
    intro hne
    apply hne
    rw [List.getD_eq_getElem?_getD]
    show (List.replicate m 0)[murmurhash3_32_gc x 0 % m]?.getD 1 = 0
    rw [List.getElem?_replicate, if_pos (Nat.mod_lt _ hm)]
    rfl
  rw [check_eq_all]
  apply Bool.eq_false_iff.mpr
  intro hall
  rw [List.all_eq_true] at hall
  have h1 := hall 0 (List.mem_range.mpr hk)
  rw [h0] at h1
  exact Bool.false_ne_true h1

/-- Witness for C5 at a concrete fresh filter (`size = 3`,
`hashCount = 2`) and the item `"a"`. -/
theorem claim5_witness :
    1 ≤ (3 : Nat) ∧ 1 ≤ (2 : Nat) ∧
      (freshFilter 1000 (1/100) 3 2).check [97] = false :=
  ⟨by decide, by decide,
    claim5_empty_filter 1000 (1/100) 3 2 [97] (by decide) (by decide) _ rfl⟩

/-- Claim C6: two filters constructed with identical parameters and given
the identical sequence of `add` calls have identical bit states and
identical `check` results for any query (two-run determinism; the whole
pipeline, including the seeded hash, is a pure function of its inputs). -/
theorem claim6_determinism (n : Int) (p : ℚ) (m k : Nat)
    (items : List (List Nat)) (q : List Nat) (bf₁ bf₂ : BloomFilter)
    (h₁ : construct n p m k = Except.ok bf₁)
    (h₂ : construct n p m k = Except.ok bf₂) :
    (bf₁.addAll items).bitArray = (bf₂.addAll items).bitArray ∧
    (bf₁.addAll items).check q = (bf₂.addAll items).check q := by
  rw [construct] at h₁ h₂
  have e : bf₁ = bf₂ := (Except.ok.inj h₁).symm.trans (Except.ok.inj h₂)
  subst e
  exact ⟨rfl, rfl⟩

/-- Witness for C6 at concrete parameters, add sequence `["a", "b"]` and
query `"c"`. -/
theorem claim6_witness :
    ((freshFilter 5 (1/10) 4 2).addAll [[97], [98]]).bitArray =
      ((freshFilter 5 (1/10) 4 2).addAll [[97], [98]]).bitArray ∧
    ((freshFilter 5 (1/10) 4 2).addAll [[97], [98]]).check [99] =
      ((freshFilter 5 (1/10) 4 2).addAll [[97], [98]]).check [99] :=
  claim6_determinism 5 (1/10) 4 2 [[97], [98]] [99] _ _ rfl rfl

/-- Claim C8: `check` is pure — it leaves every field of the filter state
(`bitArray`, `size`, `hashCount`, `expectedItems`, `falsePositiveRate`)
unchanged. -/
theorem claim8_check_pure (bf : BloomFilter) (x : List Nat) :
    (bf.checkS x).1.bitArray = bf.bitArray ∧ (bf.checkS x).1.size = bf.size ∧
    (bf.checkS x).1.hashCount = bf.hashCount ∧
    (bf.checkS x).1.expectedItems = bf.expectedItems ∧
    (bf.checkS x).1.falsePositiveRate = bf.falsePositiveRate := by
  have h : (bf.checkS x).1 = bf := checkGo_fst x (List.range bf.hashCount) bf
  rw [h]
  exact ⟨rfl, rfl, rfl, rfl, rfl⟩

/-- Claim C9: `add` and `check` are total (they are plain terminating
functions of this development), and every bit-array index they compute —
`murmurhash3_32_gc(item, i) % size` — lies inside `[0, size)`; moreover
the hash itself is a well-defined 32-bit value. -/
theorem claim9_total_and_in_bounds (bf : BloomFilter) (x : List Nat)
    (h : 1 ≤ bf.size) :
    (∀ i, i < bf.hashCount → murmurhash3_32_gc x i % bf.size < bf.size) ∧
    ∀ seed, murmurhash3_32_gc x seed < 4294967296 := by
  constructor
  · intro i _
    exact Nat.mod_lt _ h
  · intro seed
    exact Nat.mod_lt _ (by norm_num)

/-- Witness for C9 at a concrete filter and item `"a"`. -/
theorem claim9_witness :
    1 ≤ (3 : Nat) ∧ murmurhash3_32_gc [97] 0 % 3 < 3 ∧
      murmurhash3_32_gc [97] 7 < 4294967296 :=
  ⟨by decide,
   (claim9_total_and_in_bounds ⟨1000, 1/100, 3, 2, [0, 0, 0]⟩ [97] (by decide)).1 0
     (by decide),
   (claim9_total_and_in_bounds ⟨1000, 1/100, 3, 2, [0, 0, 0]⟩ [97] (by decide)).2 7⟩

/-- Claim C10: `add` mutates only `bitArray`: the other four fields are
unchanged and the bit array keeps length `size`. -/
theorem claim10_add_frame (bf : BloomFilter) (x : List Nat)
    (_hsize : 1 ≤ bf.size) (hlen : bf.bitArray.length = bf.size) :
    (bf.add x).expectedItems = bf.expectedItems ∧
    (bf.add x).falsePositiveRate = bf.falsePositiveRate ∧
    (bf.add x).size = bf.size ∧ (bf.add x).hashCount = bf.hashCount ∧
    (bf.add x).bitArray.length = (bf.add x).size :=
  ⟨add_expectedItems bf x, add_falsePositiveRate bf x, add_size bf x,
   add_hashCount bf x, by rw [add_length, add_size, hlen]⟩

/-- Witness for C10 at a concrete filter and item `"a"`. -/
theorem claim10_witness :
    1 ≤ (3 : Nat) ∧ ([0, 0, 0] : List Nat).length = 3 ∧
      (((⟨1000, 1/100, 3, 2, [0, 0, 0]⟩ : BloomFilter).add [97]).expectedItems = 1000 ∧
       ((⟨1000, 1/100, 3, 2, [0, 0, 0]⟩ : BloomFilter).add [97]).falsePositiveRate = 1/100 ∧
       ((⟨1000, 1/100, 3, 2, [0, 0, 0]⟩ : BloomFilter).add [97]).size = 3 ∧
       ((⟨1000, 1/100, 3, 2, [0, 0, 0]⟩ : BloomFilter).add [97]).hashCount = 2 ∧
       ((⟨1000, 1/100, 3, 2, [0, 0, 0]⟩ : BloomFilter).add [97]).bitArray.length =
         ((⟨1000, 1/100, 3, 2, [0, 0, 0]⟩ : BloomFilter).add [97]).size) :=
  ⟨by decide, by decide,
    claim10_add_frame ⟨1000, 1/100, 3, 2, [0, 0, 0]⟩ [97] (by decide) (by decide)⟩

end BloomFilter

end FeStandard
